import Mathlib

/-!
# Verification of the Smart Essay Agent sanitizer and submission flow

Shallow embedding of `src/main.py`. Strings are modelled as `List Char`.
The sanitizer `sanitize_filename` (lines 10–20) is embedded step by step,
and the submission branch of `main` (lines 106–130) is embedded as a pure
function from the form state and the generation outcome to the list of
user-visible actions it performs.
-/

namespace EssayAgent

/-- The whitespace characters of an ASCII string, as recognised by Python's
`str.strip` and by `\s` in the `re` module: tab, newline, vertical tab,
form feed, carriage return, space, and the separator controls U+001C–U+001F. -/
def isPySpace (c : Char) : Bool :=
  c == ' ' || c == '\t' || c == '\n' || c == '\x0b' || c == '\x0c' ||
  c == '\r' || c == '\x1c' || c == '\x1d' || c == '\x1e' || c == '\x1f'

/-- The characters matched by Python's `\w` on an ASCII string:
`[A-Za-z0-9_]`.  (Step 1 of the pipeline makes every later step operate on
pure ASCII, where the Unicode-aware `\w` coincides with this set.) -/
def isWordChar (c : Char) : Bool :=
  (65 ≤ c.toNat && c.toNat ≤ 90) || (97 ≤ c.toNat && c.toNat ≤ 122) ||
  (48 ≤ c.toNat && c.toNat ≤ 57) || c == '_'

/-- The characters kept by step 2's substitution `re.sub(r'[^\w\s-]', '', s)`:
word characters, whitespace, and the hyphen. -/
def inStep2Class (c : Char) : Bool :=
  isWordChar c || isPySpace c || c == '-'

/-- The characters collapsed by step 3's `re.sub(r'[-\s]+', '_', s)`:
hyphen or whitespace. -/
def isHyphenOrSpace (c : Char) : Bool :=
  c == '-' || isPySpace c

/-- The Windows-reserved characters removed by step 4's
`re.sub(r'[<>:"/\\|?*]', '', s)`. -/
def isWinReserved (c : Char) : Bool :=
  c == '<' || c == '>' || c == ':' || c == '"' || c == '/' ||
  c == '\\' || c == '|' || c == '?' || c == '*'

/-- Per-code-point model of line 13,
`unicodedata.normalize('NFKD', filename).encode('ascii', 'ignore')`:
each code point contributes exactly the ASCII characters of its NFKD
decomposition.  ASCII code points have no decomposition and survive the
encode, so they map to themselves.  The accented letters exercised in this
development decompose into a base letter plus a combining mark, and the
encode drops the mark: é (U+00E9) → "e", à (U+00E0) → "a".  Any other
non-ASCII code point whose decomposition contains no ASCII character is
dropped entirely; the model drops all remaining non-ASCII code points,
which is exact for every input considered here. -/
def nfkdAscii (c : Char) : List Char :=
  if c.toNat < 128 then [c]
  else if c = 'é' then ['e']
  else if c = 'à' then ['a']
  else []

/-- Step 1 (line 13): NFKD-normalise and keep only ASCII. -/
def step1 (s : List Char) : List Char :=
  s.flatMap nfkdAscii

/-- Python's `str.strip()`: drop leading and trailing whitespace. -/
def pyStrip (s : List Char) : List Char :=
  ((s.dropWhile isPySpace).reverse.dropWhile isPySpace).reverse

/-- Step 2 (line 15): `re.sub(r'[^\w\s-]', '', filename).strip()`. -/
def step2 (s : List Char) : List Char :=
  pyStrip (s.filter inStep2Class)

/-- Worker for step 3: replace each maximal run of hyphen/whitespace
characters by a single underscore.  The flag records whether the previous
character belonged to such a run. -/
def collapseAux : Bool → List Char → List Char
  | _, [] => []
  | inRun, c :: rest =>
    if isHyphenOrSpace c then
      if inRun then collapseAux true rest
      else '_' :: collapseAux true rest
    else c :: collapseAux false rest

/-- Step 3 (line 17): `re.sub(r'[-\s]+', '_', filename)`. -/
def step3 (s : List Char) : List Char :=
  collapseAux false s

/-- Step 4 (line 19): `re.sub(r'[<>:"/\\|?*]', '', filename)`. -/
def step4 (s : List Char) : List Char :=
  s.filter (fun c => !(isWinReserved c))

/-- The sanitizer `sanitize_filename` of `src/main.py`, lines 10–20:
steps 1–4 followed by truncation to 50 characters (`filename[:50]`).
The embedding is a total Lean function, matching the fact that the Python
function raises no exception on any input string. -/
def sanitize_filename (s : List Char) : List Char :=
  (step4 (step3 (step2 (step1 s)))).take 50

/-- The sanitizer pipeline with step 4 omitted, used to state that step 4
is redundant. -/
def sanitize_filename_noStep4 (s : List Char) : List Char :=
  (step3 (step2 (step1 s))).take 50

/-- The alphanumeric ASCII characters `[A-Za-z0-9]` ("safe characters"). -/
def isSafeAlnum (c : Char) : Bool :=
  (65 ≤ c.toNat && c.toNat ≤ 90) || (97 ≤ c.toNat && c.toNat ≤ 122) ||
  (48 ≤ c.toNat && c.toNat ≤ 57)

/-- A character that contributes nothing to the sanitizer's output because
it is dropped by steps 1–2: every ASCII character it decomposes to is
either removed by step 2's character-class filter or is whitespace (and so
can only feed the trim). -/
def removableChar (c : Char) : Bool :=
  (nfkdAscii c).all (fun a => isPySpace a || !(inStep2Class a))

section Lemmas

lemma pySpace_not_word {c : Char} (h : isPySpace c = true) :
    isWordChar c = false := by
  simp only [isPySpace, Bool.or_eq_true, beq_iff_eq] at h
  rcases h with ((((((((rfl | rfl) | rfl) | rfl) | rfl) | rfl) | rfl) | rfl) | rfl) | rfl <;>
    decide

lemma hyphenOrSpace_not_word {c : Char} (h : isHyphenOrSpace c = true) :
    isWordChar c = false := by
  simp only [isHyphenOrSpace, Bool.or_eq_true, beq_iff_eq] at h
  rcases h with rfl | h
  · decide
  · exact pySpace_not_word h

lemma winReserved_not_word {c : Char} (h : isWinReserved c = true) :
    isWordChar c = false := by
  simp only [isWinReserved, Bool.or_eq_true, beq_iff_eq] at h
  rcases h with (((((((rfl | rfl) | rfl) | rfl) | rfl) | rfl) | rfl) | rfl) | rfl <;> decide

lemma word_not_pySpace {c : Char} (h : isWordChar c = true) :
    isPySpace c = false := by
  cases hs : isPySpace c
  · rfl
  · rw [pySpace_not_word hs] at h; simp at h

lemma word_not_hyphenOrSpace {c : Char} (h : isWordChar c = true) :
    isHyphenOrSpace c = false := by
  cases hs : isHyphenOrSpace c
  · rfl
  · rw [hyphenOrSpace_not_word hs] at h; simp at h

lemma word_not_winReserved {c : Char} (h : isWordChar c = true) :
    isWinReserved c = false := by
  cases hs : isWinReserved c
  · rfl
  · rw [winReserved_not_word hs] at h; simp at h

lemma isWordChar_ascii {c : Char} (h : isWordChar c = true) : c.toNat < 128 := by
  simp only [isWordChar, Bool.or_eq_true, Bool.and_eq_true, decide_eq_true_eq,
    beq_iff_eq] at h
  rcases h with ((⟨h1, h2⟩ | ⟨h1, h2⟩) | ⟨h1, h2⟩) | rfl
  · omega
  · omega
  · omega
  · decide

lemma mem_of_mem_dropWhile {p : Char → Bool} {l : List Char} {a : Char}
    (h : a ∈ l.dropWhile p) : a ∈ l := by
  induction l with
  | nil => simp at h
  | cons x xs ih =>
    rw [List.dropWhile_cons] at h
    split at h
    · exact List.mem_cons_of_mem _ (ih h)
    · exact h

lemma mem_of_mem_pyStrip {s : List Char} {a : Char} (h : a ∈ pyStrip s) :
    a ∈ s := by
  unfold pyStrip at h
  rw [List.mem_reverse] at h
  have h1 := mem_of_mem_dropWhile h
  rw [List.mem_reverse] at h1
  exact mem_of_mem_dropWhile h1

lemma mem_step2 {s : List Char} {a : Char} (h : a ∈ step2 s) :
    inStep2Class a = true :=
  (List.mem_filter.mp (mem_of_mem_pyStrip h)).2

lemma collapseAux_word {s : List Char} (hs : ∀ c ∈ s, inStep2Class c = true) :
    ∀ b, ∀ c ∈ collapseAux b s, isWordChar c = true := by
  induction s with
  | nil => intro b c hc; simp [collapseAux] at hc
  | cons x xs ih =>
    intro b c hc
    have hx := hs x (List.mem_cons_self x xs)
    have hxs : ∀ c ∈ xs, inStep2Class c = true :=
      fun c hc => hs c (List.mem_cons_of_mem _ hc)
    rw [collapseAux] at hc
    by_cases hrun : isHyphenOrSpace x = true
    · rw [if_pos hrun] at hc
      cases b with
      | true => exact ih hxs true c (by simpa using hc)
      | false =>
        rcases List.mem_cons.mp (by simpa using hc) with rfl | hc'
        · decide
        · exact ih hxs true c hc'
    · rw [if_neg hrun] at hc
      rcases List.mem_cons.mp hc with rfl | hc'
      · rw [Bool.not_eq_true] at hrun
        simp only [isHyphenOrSpace, Bool.or_eq_false_iff] at hrun
        simp only [inStep2Class, Bool.or_eq_true] at hx
        rcases hx with (hw | hsp) | hhy
        · exact hw
        · rw [hrun.2] at hsp; exact absurd hsp (by simp)
        · rw [hrun.1] at hhy; exact absurd hhy (by simp)
      · exact ih hxs false c hc'

lemma step3_step2_word (s : List Char) :
    ∀ c ∈ step3 (step2 s), isWordChar c = true :=
  collapseAux_word (fun _ hc => mem_step2 hc) false

lemma sanitize_all_word (s : List Char) :
    ∀ c ∈ sanitize_filename s, isWordChar c = true := by
  intro c hc
  unfold sanitize_filename step4 at hc
  have h1 := List.mem_of_mem_take hc
  exact step3_step2_word (step1 s) c (List.mem_filter.mp h1).1

lemma sanitize_length_le (s : List Char) :
    (sanitize_filename s).length ≤ 50 := by
  unfold sanitize_filename
  rw [List.length_take]
  exact min_le_left _ _

lemma step1_id {s : List Char} (h : ∀ c ∈ s, isWordChar c = true) :
    step1 s = s := by
  induction s with
  | nil => rfl
  | cons x xs ih =>
    have hx : nfkdAscii x = [x] := by
      unfold nfkdAscii
      rw [if_pos (isWordChar_ascii (h x (List.mem_cons_self x xs)))]
    unfold step1 at ih ⊢
    rw [List.flatMap_cons, hx, ih (fun c hc => h c (List.mem_cons_of_mem _ hc))]
    rfl

lemma dropWhile_id {p : Char → Bool} {s : List Char}
    (h : ∀ c ∈ s, p c = false) : s.dropWhile p = s := by
  cases s with
  | nil => rfl
  | cons x xs =>
    rw [List.dropWhile_cons, h x (List.mem_cons_self x xs)]
    simp

lemma pyStrip_id {s : List Char} (h : ∀ c ∈ s, isPySpace c = false) :
    pyStrip s = s := by
  unfold pyStrip
  rw [dropWhile_id h, dropWhile_id (fun c hc => h c (List.mem_reverse.mp hc)),
    List.reverse_reverse]

lemma collapseAux_id {s : List Char}
    (h : ∀ c ∈ s, isHyphenOrSpace c = false) : ∀ b, collapseAux b s = s := by
  induction s with
  | nil => intro b; rfl
  | cons x xs ih =>
    intro b
    rw [collapseAux, if_neg (by rw [h x (List.mem_cons_self x xs)]; simp),
      ih (fun c hc => h c (List.mem_cons_of_mem _ hc)) false]

lemma step4_id {s : List Char} (h : ∀ c ∈ s, isWordChar c = true) :
    step4 s = s := by
  unfold step4
  exact List.filter_eq_self.mpr
    (fun a ha => by rw [word_not_winReserved (h a ha)]; rfl)

lemma sanitize_of_word {s : List Char} (h : ∀ c ∈ s, isWordChar c = true) :
    sanitize_filename s = s.take 50 := by
  unfold sanitize_filename step2 step3
  rw [step1_id h,
    List.filter_eq_self.mpr (fun a ha => by simp [inStep2Class, h a ha]),
    pyStrip_id (fun c hc => word_not_pySpace (h c hc)),
    collapseAux_id (fun c hc => word_not_hyphenOrSpace (h c hc)) false,
    step4_id h]

lemma sanitize_idem (s : List Char) :
    sanitize_filename (sanitize_filename s) = sanitize_filename s := by
  rw [sanitize_of_word (sanitize_all_word s)]
  exact List.take_of_length_le (sanitize_length_le s)

end Lemmas

/-- C1: for every input string, `sanitize_filename` returns a string whose
characters all lie in `[A-Za-z0-9_]` and whose length is at most 50.  The
function is total on all input strings: the embedding is a total Lean
function defined by the same steps as the Python code, which applies only
total string operations. -/
theorem C1_sanitize_charclass_length (s : List Char) :
    (∀ c ∈ sanitize_filename s, isWordChar c = true) ∧
    (sanitize_filename s).length ≤ 50 :=
  ⟨sanitize_all_word s, sanitize_length_le s⟩

theorem C1_sanitize_charclass_length_witness :
    (∀ c ∈ sanitize_filename ("Climate Change!!".toList),
      isWordChar c = true) ∧
    (sanitize_filename ("Climate Change!!".toList)).length ≤ 50 :=
  C1_sanitize_charclass_length ("Climate Change!!".toList)

/-- C2 counterexample: the claim says
`sanitize_filename "café déjà-vu" = "caf_dj_vu"` (accents stripped).  On the
code this is false: NFKD decomposes é into e + U+0301 and à into a + U+0300,
the ASCII encode keeps the base letters, so the accents are folded, not
stripped. -/
theorem C2_counterexample :
    sanitize_filename ("café déjà-vu".toList) ≠ "caf_dj_vu".toList := by
  decide

/-- C2 (amended): `sanitize_filename "café déjà-vu" = "cafe_deja_vu"`:
accented letters are folded to their base ASCII letters by the
NFKD + ASCII-encode step, and only the combining marks are dropped. -/
theorem C2_cafe_deja_vu :
    sanitize_filename ("café déjà-vu".toList) = "cafe_deja_vu".toList := by
  decide

/-- C3: `sanitize_filename` is idempotent on every string whose characters
all lie in step 2's retained class (alphanumeric, underscore, whitespace,
or hyphen).  In fact the code satisfies the stronger unconditional
idempotence, of which this is the special case the claim states. -/
theorem C3_sanitize_idempotent (S : List Char)
    (_h : ∀ c ∈ S, inStep2Class c = true) :
    sanitize_filename (sanitize_filename S) = sanitize_filename S :=
  sanitize_idem S

theorem C3_sanitize_idempotent_witness :
    (∀ c ∈ ("a -b".toList), inStep2Class c = true) ∧
    sanitize_filename (sanitize_filename ("a -b".toList)) =
      sanitize_filename ("a -b".toList) :=
  ⟨by decide, C3_sanitize_idempotent ("a -b".toList) (by decide)⟩

/-- C4: step 4 of the pipeline (removal of the Windows-reserved characters
`< > : " / \ | ? *`) is redundant: after steps 1–3 every remaining
character is in `[A-Za-z0-9_]`, so the pipeline with step 4 omitted
produces the same output on every input. -/
theorem C4_step4_redundant (s : List Char) :
    sanitize_filename s = sanitize_filename_noStep4 s := by
  unfold sanitize_filename sanitize_filename_noStep4
  rw [step4_id (step3_step2_word (step1 s))]

theorem C4_step4_redundant_witness :
    sanitize_filename ("a<b>c:d".toList) =
      sanitize_filename_noStep4 ("a<b>c:d".toList) :=
  C4_step4_redundant ("a<b>c:d".toList)

/-- C5: a string of 200 repetitions of a safe character (one of
`[A-Za-z0-9]`) sanitizes to exactly its first 50 characters, a string of
length exactly 50. -/
theorem C5_replicate_truncation (c : Char) (h : isSafeAlnum c = true) :
    sanitize_filename (List.replicate 200 c) = List.replicate 50 c ∧
    (sanitize_filename (List.replicate 200 c)).length = 50 := by
  have hw : ∀ a ∈ List.replicate 200 c, isWordChar a = true := by
    intro a ha
    rw [List.eq_of_mem_replicate ha]
    simp only [isSafeAlnum, Bool.or_eq_true] at h
    simp only [isWordChar, Bool.or_eq_true]
    tauto
  have ht : sanitize_filename (List.replicate 200 c) = List.replicate 50 c := by
    rw [sanitize_of_word hw, List.take_replicate]
    norm_num
  exact ⟨ht, by rw [ht, List.length_replicate]⟩

theorem C5_replicate_truncation_witness :
    isSafeAlnum 'x' = true ∧
    (sanitize_filename (List.replicate 200 'x') = List.replicate 50 'x' ∧
     (sanitize_filename (List.replicate 200 'x')).length = 50) :=
  ⟨by decide, C5_replicate_truncation 'x' (by decide)⟩

/-- C6: the empty string sanitizes to the empty string, and more generally
every string all of whose characters are removable (contribute nothing
after steps 1–2: each ASCII character of their decomposition is either
outside step 2's kept class or whitespace) sanitizes to the empty string. -/
theorem C6_removable_to_empty :
    sanitize_filename [] = [] ∧
    ∀ s : List Char, (∀ c ∈ s, removableChar c = true) →
      sanitize_filename s = [] := by
  refine ⟨rfl, ?_⟩
  intro s h
  have h1 : ∀ a ∈ step1 s, (isPySpace a || !(inStep2Class a)) = true := by
    intro a ha
    unfold step1 at ha
    rw [List.mem_flatMap] at ha
    obtain ⟨c, hc, hac⟩ := ha
    have hr := h c hc
    unfold removableChar at hr
    rw [List.all_eq_true] at hr
    exact hr a hac
  have h2 : ∀ a ∈ (step1 s).filter inStep2Class, isPySpace a = true := by
    intro a ha
    rw [List.mem_filter] at ha
    have := h1 a ha.1
    rw [ha.2] at this
    simpa using this
  have h3 : step2 (step1 s) = [] := by
    unfold step2 pyStrip
    rw [List.dropWhile_eq_nil_iff.mpr h2]
    rfl
  unfold sanitize_filename
  rw [h3]
  rfl

theorem C6_removable_to_empty_witness :
    (∀ c ∈ ("!?€".toList), removableChar c = true) ∧
    sanitize_filename ("!?€".toList) = [] :=
  ⟨by decide, C6_removable_to_empty.2 ("!?€".toList) (by decide)⟩

/-- C10: the strip in step 2 trims only whitespace, not hyphens, and runs
before step 3 turns hyphen runs into underscores, so the output can begin
or end with an underscore: `sanitize_filename "-a-" = "_a_"`. -/
theorem C10_leading_trailing_underscore :
    sanitize_filename ("-a-".toList) = "_a_".toList := by
  decide

/-! ## The submission branch of `main` (src/main.py, lines 106–130)

On a form submission `main` runs one of three branches:
  * `submit_button and essay_topic` (a Python string is truthy iff
    non-empty): invoke `generate_essay` on the topic inside a
    `try`/`except`; on success show the success banner, render the essay
    and offer the download button; on any exception show a single error
    banner built from the exception text;
  * `submit_button and not essay_topic`: show a validation warning;
  * no submission: do nothing.
The generation call is an opaque remote procedure; its outcome is modelled
as an `Except` value (error text on failure, essay text on success), and
the branch is modelled as a pure function producing the ordered list of
user-visible actions. -/

/-- The user-visible actions of one submission step. -/
inductive UIEvent where
  /-- The invocation of `generate_essay` (line 109), with the prompt
  `Runner.run` receives (line 88). -/
  | callGenerate : List Char → UIEvent
  /-- `st.success("Your essay is ready!")` (line 111). -/
  | successBanner : UIEvent
  /-- `st.markdown(essay)` (line 114): the essay rendered on screen. -/
  | showEssay : List Char → UIEvent
  /-- `st.download_button` (lines 120–125): file name, data, MIME type. -/
  | downloadButton : List Char → List Char → List Char → UIEvent
  /-- `st.error(...)` (line 128). -/
  | errorBanner : List Char → UIEvent
  /-- `st.warning(...)` (line 130). -/
  | warningBanner : List Char → UIEvent
  deriving DecidableEq

/-- Whether an event is the invocation of the essay-generation call. -/
def UIEvent.isGenerateCall : UIEvent → Bool
  | .callGenerate _ => true
  | _ => false

/-- Whether an event offers a download or renders an essay: the events
that would expose a (partial) result. -/
def UIEvent.isResultEvent : UIEvent → Bool
  | .showEssay _ => true
  | .downloadButton _ _ _ => true
  | _ => false

/-- The prompt sent to the model (line 88):
`f"Write a comprehensive essay about: {topic}"`. -/
def essayPrompt (topic : List Char) : List Char :=
  "Write a comprehensive essay about: ".toList ++ topic

/-- The file name offered by the download button (lines 117–118):
`f"essay_{safe_filename[:50]}.txt"` where
`safe_filename = sanitize_filename(essay_topic)`. -/
def downloadFileName (topic : List Char) : List Char :=
  "essay_".toList ++ (sanitize_filename topic).take 50 ++ ".txt".toList

/-- The submission branch of `main` (lines 106–130) as a pure function:
given the submit flag, the topic, and the outcome of the generation call,
the ordered list of user-visible actions performed. -/
def handleSubmission (submit : Bool) (topic : List Char)
    (genResult : Except (List Char) (List Char)) : List UIEvent :=
  if submit && !(topic.isEmpty) then
    UIEvent.callGenerate (essayPrompt topic) ::
      (match genResult with
       | .ok essay =>
         [UIEvent.successBanner, UIEvent.showEssay essay,
          UIEvent.downloadButton (downloadFileName topic) essay
            ("text/plain".toList)]
       | .error e =>
         [UIEvent.errorBanner ("An error occurred: ".toList ++ e)])
  else if submit && topic.isEmpty then
    [UIEvent.warningBanner ("Please enter a topic for your essay".toList)]
  else
    []

/-- C7: submitting with an empty topic never invokes the generation call;
instead the validation warning is shown, whatever the (hypothetical)
generation outcome would have been. -/
theorem C7_empty_topic_no_generation (submit : Bool)
    (genResult : Except (List Char) (List Char)) :
    (∀ ev ∈ handleSubmission submit [] genResult,
      ev.isGenerateCall = false) ∧
    (submit = true → handleSubmission submit [] genResult =
      [UIEvent.warningBanner ("Please enter a topic for your essay".toList)]) := by
  cases submit <;> simp [handleSubmission, UIEvent.isGenerateCall]

theorem C7_empty_topic_no_generation_witness :
    (∀ ev ∈ handleSubmission true [] (Except.ok ("essay".toList)),
      UIEvent.isGenerateCall ev = false) ∧
    (true = true → handleSubmission true [] (Except.ok ("essay".toList)) =
      [UIEvent.warningBanner ("Please enter a topic for your essay".toList)]) :=
  C7_empty_topic_no_generation true (Except.ok ("essay".toList))

/-- C8: on a non-empty topic and a successful generation, the download
offered has file name `"essay_" ++ (sanitize_filename topic).take 50 ++
".txt"`, its content is the generated essay, and its MIME type is
`text/plain` — the exact sequence of actions is the generation call, the
success banner, the rendered essay, and that download button. -/
theorem C8_download_contract (topic essay : List Char) (h : topic ≠ []) :
    handleSubmission true topic (Except.ok essay) =
      [UIEvent.callGenerate (essayPrompt topic),
       UIEvent.successBanner, UIEvent.showEssay essay,
       UIEvent.downloadButton
         ("essay_".toList ++ (sanitize_filename topic).take 50 ++ ".txt".toList)
         essay ("text/plain".toList)] := by
  simp [handleSubmission, List.isEmpty_iff, h, downloadFileName]

theorem C8_download_contract_witness :
    ("ab".toList ≠ []) ∧
    handleSubmission true ("ab".toList) (Except.ok ("text".toList)) =
      [UIEvent.callGenerate (essayPrompt ("ab".toList)),
       UIEvent.successBanner, UIEvent.showEssay ("text".toList),
       UIEvent.downloadButton
         ("essay_".toList ++ (sanitize_filename ("ab".toList)).take 50 ++
           ".txt".toList)
         ("text".toList) ("text/plain".toList)] :=
  ⟨by decide, C8_download_contract ("ab".toList) ("text".toList) (by decide)⟩

/-- C9: on a non-empty topic, a failing generation call produces exactly
one generation attempt (no retry) followed by a single error banner whose
text contains the underlying error text as a suffix; no essay is rendered
and no download is offered. -/
theorem C9_error_path (topic e : List Char) (h : topic ≠ []) :
    handleSubmission true topic (Except.error e) =
      [UIEvent.callGenerate (essayPrompt topic),
       UIEvent.errorBanner ("An error occurred: ".toList ++ e)] ∧
    (handleSubmission true topic (Except.error e)).countP
      UIEvent.isGenerateCall = 1 ∧
    e <:+ ("An error occurred: ".toList ++ e) ∧
    ∀ ev ∈ handleSubmission true topic (Except.error e),
      ev.isResultEvent = false := by
  have heq : handleSubmission true topic (Except.error e) =
      [UIEvent.callGenerate (essayPrompt topic),
       UIEvent.errorBanner ("An error occurred: ".toList ++ e)] := by
    simp [handleSubmission, List.isEmpty_iff, h]
  refine ⟨heq, ?_, List.suffix_append _ _, ?_⟩
  · rw [heq]; rfl
  · rw [heq]
    intro ev hev
    rcases List.mem_cons.mp hev with rfl | hev'
    · rfl
    · rcases List.mem_cons.mp hev' with rfl | hev''
      · rfl
      · simp at hev''

theorem C9_error_path_witness :
    ("ab".toList ≠ []) ∧
    (handleSubmission true ("ab".toList) (Except.error ("boom".toList)) =
      [UIEvent.callGenerate (essayPrompt ("ab".toList)),
       UIEvent.errorBanner ("An error occurred: ".toList ++ "boom".toList)] ∧
     (handleSubmission true ("ab".toList)
        (Except.error ("boom".toList))).countP UIEvent.isGenerateCall = 1 ∧
     "boom".toList <:+ ("An error occurred: ".toList ++ "boom".toList) ∧
     ∀ ev ∈ handleSubmission true ("ab".toList) (Except.error ("boom".toList)),
       UIEvent.isResultEvent ev = false) :=
  ⟨by decide, C9_error_path ("ab".toList) ("boom".toList) (by decide)⟩

end EssayAgent
